import Mathlib

/-!
Shallow embedding of the expense approval-workflow engine of this
repository (backend models/Expense.js and routes/expenses.js).

Users and ObjectIds are modelled as natural numbers, timestamps
(`new Date()` at action time) as a natural number passed to each action,
and monetary amounts as rationals.  Mongoose documents become Lean
structures; route handlers become functions returning `Except ApiError
Expense` (an HTTP error response corresponds to `.error`, and a handler
that returns an error response never mutates the stored record, which the
functional embedding reflects by construction).
-/

namespace ExpenseApp

/-- Expense `status` enum of the Expense schema. -/
inductive ExpStatus
  | draft
  | submitted
  | pending_approval
  | approved
  | rejected
  | reimbursed
  deriving DecidableEq, Repr

/-- Approval-step `status` enum of the approvalStepSchema. -/
inductive StepStatus
  | pending
  | approved
  | rejected
  deriving DecidableEq, Repr

/-- `approvalWorkflow.finalStatus` enum. -/
inductive FinalStatus
  | approved
  | rejected
  deriving DecidableEq, Repr

/-- One element of `approvalWorkflow.steps` (approvalStepSchema). -/
structure ApprovalStep where
  approver : Nat
  status : StepStatus
  comments : Option String
  processedAt : Option Nat
  order : Nat
  deriving DecidableEq, Repr

/-- The embedded `approvalWorkflow` object of an expense. -/
structure ApprovalWorkflow where
  currentStep : Nat
  steps : List ApprovalStep
  completedAt : Option Nat
  finalStatus : Option FinalStatus
  deriving DecidableEq, Repr

/-- The fields of an Expense document that the workflow engine reads or
writes.  Receipts, notes, tags and metadata are append-only side lists
with no bearing on the claims and are omitted. -/
structure Expense where
  employee : Nat
  title : String
  amount : ℚ
  currencyCode : String
  currencyRate : ℚ
  convertedAmount : ℚ
  category : String
  status : ExpStatus
  approvalWorkflow : ApprovalWorkflow
  submittedAt : Option Nat
  approvedAt : Option Nat
  rejectedAt : Option Nat
  deriving DecidableEq, Repr

/-- `type` enum of the approvalRuleSchema (models/Company.js). -/
inductive RuleType
  | percentage
  | specific
  | hybrid
  deriving DecidableEq, Repr

/-- One entry of `specificApprovers` in an approval rule. -/
structure SpecificApprover where
  user : Nat
  autoApprove : Bool
  deriving DecidableEq, Repr

/-- One organization-level approval rule (approvalRuleSchema).
`minAmount` / `maxAmount` are optional numbers; the schema defaults
`minAmount` to 0 and leaves `maxAmount` unset.  `none` models an absent
(undefined) field. -/
structure ApprovalRule where
  type : RuleType
  percentage : Option Nat
  specificApprovers : List SpecificApprover
  minAmount : Option ℚ
  maxAmount : Option ℚ
  categories : List String
  isActive : Bool
  deriving DecidableEq, Repr

/-- One expense category of the company configuration: name and
`isActive` flag. -/
structure ExpenseCategory where
  name : String
  isActive : Bool
  deriving DecidableEq, Repr

/-- The slice of the Company document read by the expense routes.
`admin` models the result of the `User.findOne({company, role: 'admin',
isActive: true})` lookup: the first active admin of the company, if any. -/
structure CompanyCfg where
  defaultCurrencyCode : String
  expenseCategories : List ExpenseCategory
  maxExpenseAmount : Option ℚ
  isManagerApproverEnabled : Bool
  approvalRules : List ApprovalRule
  admin : Option Nat
  deriving DecidableEq, Repr

/-- JavaScript truthiness of an optional numeric field: `undefined` and
`0` are falsy, every other number is truthy. -/
def jsTruthy : Option ℚ → Bool
  | none => false
  | some x => x != 0

/-- Error responses of the expense route handlers (routes/expenses.js).
`authorization` is an HTTP 403, `invalidState` and `validation` are 400s,
`serverError` is the catch-all 500. -/
inductive ApiError
  | authorization (msg : String)
  | invalidState (msg : String)
  | validation (msg : String)
  | serverError (msg : String)
  deriving DecidableEq, Repr

/-- `getExchangeRate` (routes/expenses.js).  The network call is modelled
by its outcome `lookupResult`: `.error` is a thrown axios error, `.ok
none` a response whose `rates` object lacks the target currency, and `.ok
(some r)` a response carrying rate `r`.  `response.data.rates[toCurrency]
|| 1` makes an absent or zero rate fall back to 1. -/
def getExchangeRate (fromCurrency toCurrency : String)
    (lookupResult : Except String (Option ℚ)) : ℚ :=
  if fromCurrency = toCurrency then 1
  else
    match lookupResult with
    | .error _ => 1
    | .ok none => 1
    | .ok (some r) => if r = 0 then 1 else r

/-- A fresh pending step, as pushed by `createApprovalWorkflow`. -/
def mkStep (approver : Nat) (order : Nat) : ApprovalStep :=
  { approver := approver
    status := .pending
    comments := none
    processedAt := none
    order := order }

/-- The rule filter predicate inside `createApprovalWorkflow`
(routes/expenses.js lines 39-50), including the JavaScript truthiness of
`rule.minAmount` / `rule.maxAmount`. -/
def ruleMatches (convertedAmount : ℚ) (category : String)
    (rule : ApprovalRule) : Bool :=
  rule.isActive &&
  !(jsTruthy rule.minAmount && convertedAmount < rule.minAmount.getD 0) &&
  !(jsTruthy rule.maxAmount && convertedAmount > rule.maxAmount.getD 0) &&
  !(rule.categories.length > 0 && !(rule.categories.contains category))

/-- The `rule.specificApprovers.forEach` loop of `createApprovalWorkflow`:
append one step per entry, skipping approvers already present, carrying
the running `stepOrder` counter. -/
def addRuleSteps (approvers : List SpecificApprover)
    (acc : List ApprovalStep × Nat) : List ApprovalStep × Nat :=
  approvers.foldl
    (fun acc ap =>
      if acc.1.any (fun s => s.approver == ap.user) then acc
      else (acc.1 ++ [mkStep ap.user acc.2], acc.2 + 1))
    acc

/-- Insertion of a step into a list sorted by `order`, stable for equal
keys, used to model `steps.sort((a, b) => a.order - b.order)`. -/
def insertByOrder (s : ApprovalStep) : List ApprovalStep → List ApprovalStep
  | [] => [s]
  | t :: ts => if s.order ≤ t.order then s :: t :: ts else t :: insertByOrder s ts

/-- Stable sort by `order`, modelling the JavaScript `Array.prototype.sort`
call at the end of `createApprovalWorkflow`. -/
def sortByOrder (l : List ApprovalStep) : List ApprovalStep :=
  l.foldr insertByOrder []

/-- Stage 1 of `createApprovalWorkflow` (routes/expenses.js lines 29-36):
the manager step, pushed when the company setting is on and the employee
has a manager, together with the running `stepOrder` counter. -/
def managerSteps (employeeManager : Option Nat) (company : CompanyCfg) :
    List ApprovalStep × Nat :=
  match company.isManagerApproverEnabled, employeeManager with
  | true, some m => ([mkStep m 0], 1)
  | _, _ => ([], 0)

/-- Stage 2 of `createApprovalWorkflow` (routes/expenses.js lines 38-68):
filter the company rules, then expand only the first matching rule — a
`specific`/`hybrid` rule appends its `specificApprovers` (deduplicated),
any other type leaves the accumulator untouched. -/
def ruleSteps (convertedAmount : ℚ) (category : String) (company : CompanyCfg)
    (acc : List ApprovalStep × Nat) : List ApprovalStep × Nat :=
  match (company.approvalRules.filter
      (ruleMatches convertedAmount category)).head? with
  | none => acc
  | some rule =>
    match rule.type with
    | .specific | .hybrid => addRuleSteps rule.specificApprovers acc
    | .percentage => acc

/-- Stage 3 of `createApprovalWorkflow` (routes/expenses.js lines 70-85):
when no step was produced, fall back to the first active admin of the
company (if any). -/
def fallbackSteps (company : CompanyCfg) (steps : List ApprovalStep) :
    List ApprovalStep :=
  if steps.length = 0 then
    match company.admin with
    | some a => [mkStep a 0]
    | none => []
  else steps

/-- `createApprovalWorkflow` (routes/expenses.js lines 25-91).
`employeeManager` is `expense.employee.manager` (the populated manager
reference, if any).  The returned mongoose subdocument has `completedAt`
and `finalStatus` unset. -/
def createApprovalWorkflow (employeeManager : Option Nat)
    (convertedAmount : ℚ) (category : String)
    (company : CompanyCfg) : ApprovalWorkflow :=
  { currentStep := 0
    steps := sortByOrder (fallbackSteps company
      (ruleSteps convertedAmount category company
        (managerSteps employeeManager company)).1)
    completedAt := none
    finalStatus := none }

/-- `canBeApprovedBy` method (models/Expense.js lines 192-197).
`steps[currentStep]` being out of range yields `undefined`, hence
`false`. -/
def Expense.canBeApprovedBy (e : Expense) (userId : Nat) : Bool :=
  if e.status ≠ ExpStatus.pending_approval then false
  else
    match e.approvalWorkflow.steps[e.approvalWorkflow.currentStep]? with
    | none => false
    | some currentStep =>
      currentStep.approver == userId && currentStep.status == StepStatus.pending

/-- `approve` method (models/Expense.js lines 200-220).  A thrown
`Error('Unauthorized to approve this expense')` is `.error`. -/
def Expense.approve (e : Expense) (approverId : Nat) (comments : Option String)
    (now : Nat) : Except String Expense :=
  let i := e.approvalWorkflow.currentStep
  match e.approvalWorkflow.steps[i]? with
  | none => .error "Unauthorized to approve this expense"
  | some currentStep =>
    if currentStep.approver ≠ approverId then
      .error "Unauthorized to approve this expense"
    else
      let steps := e.approvalWorkflow.steps.set i
        { currentStep with
          status := .approved
          comments := comments
          processedAt := some now }
      if i + 1 < steps.length then
        .ok { e with approvalWorkflow :=
          { e.approvalWorkflow with currentStep := i + 1, steps := steps } }
      else
        .ok { e with
          status := .approved
          approvedAt := some now
          approvalWorkflow :=
            { e.approvalWorkflow with
              steps := steps
              completedAt := some now
              finalStatus := some .approved } }

/-- `reject` method (models/Expense.js lines 223-238). -/
def Expense.reject (e : Expense) (approverId : Nat) (comments : Option String)
    (now : Nat) : Except String Expense :=
  let i := e.approvalWorkflow.currentStep
  match e.approvalWorkflow.steps[i]? with
  | none => .error "Unauthorized to reject this expense"
  | some currentStep =>
    if currentStep.approver ≠ approverId then
      .error "Unauthorized to reject this expense"
    else
      let steps := e.approvalWorkflow.steps.set i
        { currentStep with
          status := .rejected
          comments := comments
          processedAt := some now }
      .ok { e with
        status := .rejected
        rejectedAt := some now
        approvalWorkflow :=
          { e.approvalWorkflow with
            steps := steps
            completedAt := some now
            finalStatus := some .rejected } }

/-- `PUT /api/expenses/:id/submit` handler body for an existing expense
(routes/expenses.js lines 333-397), after the not-found check. -/
def submitExpense (e : Expense) (actingUserId : Nat) (now : Nat) :
    Except ApiError Expense :=
  if e.employee ≠ actingUserId then
    .error (.authorization "Access denied")
  else if e.status ≠ ExpStatus.draft then
    .error (.invalidState "Expense can only be submitted from draft status")
  else
    let e1 := { e with
      status := if e.approvalWorkflow.steps.length > 0 then
          ExpStatus.pending_approval else ExpStatus.approved
      submittedAt := some now }
    if e.approvalWorkflow.steps.length = 0 then
      .ok { e1 with
        approvedAt := some now
        approvalWorkflow := { e1.approvalWorkflow with
          completedAt := some now, finalStatus := some .approved } }
    else
      .ok e1

/-- `PUT /api/expenses/:id/approve` handler body for an existing expense
(routes/expenses.js lines 402-447).  A throw inside the try block is
caught and reported as a 500 with the error message. -/
def approveExpense (e : Expense) (actingUserId : Nat)
    (comments : Option String) (now : Nat) : Except ApiError Expense :=
  if ¬ e.canBeApprovedBy actingUserId then
    .error (.authorization "You are not authorized to approve this expense")
  else
    match e.approve actingUserId comments now with
    | .ok e2 => .ok e2
    | .error msg => .error (.serverError msg)

/-- The `body('comments').trim().notEmpty()` express-validator check:
after trimming, `comments` is empty exactly when every character is
whitespace. -/
def isBlankComments (s : String) : Bool :=
  s.data.all (fun c => c.isWhitespace)

/-- `PUT /api/expenses/:id/reject` handler body for an existing expense
(routes/expenses.js lines 452-506).  The express-validator chain rejects
an absent or blank `comments` body field with a 400 before the handler
runs. -/
def rejectExpense (e : Expense) (actingUserId : Nat)
    (comments : String) (now : Nat) : Except ApiError Expense :=
  if isBlankComments comments then
    .error (.validation "Comments are required for rejection")
  else if ¬ e.canBeApprovedBy actingUserId then
    .error (.authorization "You are not authorized to reject this expense")
  else
    match e.reject actingUserId (some comments) now with
    | .ok e2 => .ok e2
    | .error msg => .error (.serverError msg)

/-- `POST /api/expenses` handler body (routes/expenses.js lines 219-328),
after authentication: category validation, currency conversion, company
limit check, then construction of the draft expense with its frozen
approval workflow.  `lookupResult` is the exchange-rate lookup outcome as
in `getExchangeRate`. -/
def createExpense (employeeId : Nat) (title : String) (amount : ℚ)
    (currencyCode : Option String) (category : String)
    (employeeManager : Option Nat) (company : CompanyCfg)
    (lookupResult : Except String (Option ℚ)) : Except ApiError Expense :=
  if ¬ company.expenseCategories.any
      (fun c => c.name == category && c.isActive) then
    .error (.validation "Invalid expense category")
  else
    let expenseCurrency := currencyCode.getD company.defaultCurrencyCode
    let exchangeRate :=
      getExchangeRate expenseCurrency company.defaultCurrencyCode lookupResult
    let convertedAmount := amount * exchangeRate
    if jsTruthy company.maxExpenseAmount &&
        convertedAmount > company.maxExpenseAmount.getD 0 then
      .error (.validation "Expense amount exceeds company limit")
    else
      .ok { employee := employeeId
            title := title
            amount := amount
            currencyCode := expenseCurrency
            currencyRate := exchangeRate
            convertedAmount := convertedAmount
            category := category
            status := .draft
            approvalWorkflow :=
              createApprovalWorkflow employeeManager convertedAmount
                category company
            submittedAt := none
            approvedAt := none
            rejectedAt := none }

/-! ### Workflow-builder lemmas -/

/-- Invariant of the builder's step accumulator: the `order` values so
far are exactly `0 … len-1` in positional order, the running `stepOrder`
counter equals the length, and the approvers are pairwise distinct. -/
def AccInv (acc : List ApprovalStep × Nat) : Prop :=
  acc.1.map (fun s => s.order) = List.range acc.1.length ∧
  acc.2 = acc.1.length ∧
  (acc.1.map (fun s => s.approver)).Nodup

/-- Unfolding of the `forEach` fold one approver at a time. -/
lemma addRuleSteps_cons (ap : SpecificApprover) (aps : List SpecificApprover)
    (acc : List ApprovalStep × Nat) :
    addRuleSteps (ap :: aps) acc =
      addRuleSteps aps
        (if acc.1.any (fun s => s.approver == ap.user) then acc
         else (acc.1 ++ [mkStep ap.user acc.2], acc.2 + 1)) := rfl

/-- One `forEach` iteration preserves the accumulator invariant. -/
lemma accInv_step (acc : List ApprovalStep × Nat) (ap : SpecificApprover)
    (h : AccInv acc) :
    AccInv (if acc.1.any (fun s => s.approver == ap.user) then acc
            else (acc.1 ++ [mkStep ap.user acc.2], acc.2 + 1)) := by
  split
  · exact h
  · next hnotin =>
    obtain ⟨ho, hc, hn⟩ := h
    refine ⟨?_, ?_, ?_⟩
    · simp only [List.map_append, List.length_append, List.map_cons,
        List.map_nil, List.length_cons, List.length_nil, mkStep]
      rw [ho, hc]
      simp [List.range_succ]
    · simp [hc]
    · have hni : ap.user ∉ acc.1.map (fun s => s.approver) := by
        simp only [List.any_eq_true, not_exists, not_and] at hnotin
        simp only [List.mem_map, not_exists, not_and]
        intro s hs he
        exact absurd (hnotin) (by
          push_neg
          exact ⟨s, hs, by simp [he]⟩)
      simp only [List.map_append, List.map_cons, List.map_nil, mkStep]
      rw [List.nodup_append]
      refine ⟨hn, List.nodup_singleton _, ?_⟩
      intro a ha hb
      simp only [List.mem_singleton] at hb
      exact hni (hb ▸ ha)

/-- `addRuleSteps` preserves the accumulator invariant. -/
lemma addRuleSteps_accInv (aps : List SpecificApprover) :
    ∀ acc, AccInv acc → AccInv (addRuleSteps aps acc) := by
  induction aps with
  | nil => intro acc h; exact h
  | cons ap aps ih =>
    intro acc h
    rw [addRuleSteps_cons]
    exact ih _ (accInv_step acc ap h)

/-- `addRuleSteps` only ever appends steps. -/
lemma addRuleSteps_prefix (aps : List SpecificApprover) :
    ∀ acc, ∃ ext, (addRuleSteps aps acc).1 = acc.1 ++ ext := by
  induction aps with
  | nil => intro acc; exact ⟨[], (List.append_nil _).symm⟩
  | cons ap aps ih =>
    intro acc
    rw [addRuleSteps_cons]
    split
    · exact ih acc
    · obtain ⟨ext, he⟩ := ih (acc.1 ++ [mkStep ap.user acc.2], acc.2 + 1)
      exact ⟨[mkStep ap.user acc.2] ++ ext, by
        rw [he]
        simp [List.append_assoc]⟩

/-- The manager stage satisfies the accumulator invariant. -/
lemma managerSteps_accInv (employeeManager : Option Nat) (company : CompanyCfg) :
    AccInv (managerSteps employeeManager company) := by
  unfold managerSteps
  rcases company.isManagerApproverEnabled with _ | _ <;>
    rcases employeeManager with _ | m <;>
    exact ⟨rfl, rfl, by simp⟩

/-- The rule stage preserves the accumulator invariant. -/
lemma ruleSteps_accInv (convertedAmount : ℚ) (category : String)
    (company : CompanyCfg) (acc : List ApprovalStep × Nat) (h : AccInv acc) :
    AccInv (ruleSteps convertedAmount category company acc) := by
  unfold ruleSteps
  split
  · exact h
  · split
    all_goals first
      | exact h
      | exact addRuleSteps_accInv _ acc h

/-- The rule stage only ever appends steps. -/
lemma ruleSteps_prefix (convertedAmount : ℚ) (category : String)
    (company : CompanyCfg) (acc : List ApprovalStep × Nat) :
    ∃ ext, (ruleSteps convertedAmount category company acc).1 = acc.1 ++ ext := by
  unfold ruleSteps
  split
  · exact ⟨[], (List.append_nil _).symm⟩
  · split
    all_goals first
      | exact ⟨[], (List.append_nil _).symm⟩
      | exact addRuleSteps_prefix _ acc

/-- Positional-order/distinctness invariant of a finished step list. -/
def StepsInv (l : List ApprovalStep) : Prop :=
  l.map (fun s => s.order) = List.range l.length ∧
  (l.map (fun s => s.approver)).Nodup

/-- The fallback stage yields a step list satisfying the invariant. -/
lemma fallbackSteps_stepsInv (company : CompanyCfg)
    (steps : List ApprovalStep) (h : StepsInv steps) :
    StepsInv (fallbackSteps company steps) := by
  unfold fallbackSteps
  split
  · rcases company.admin with _ | a
    · exact ⟨rfl, by simp⟩
    · exact ⟨rfl, by simp⟩
  · exact h

/-- A list whose orders are `0 … n-1` positionally is sorted by `order`. -/
lemma pairwise_order_of_range (l : List ApprovalStep)
    (h : l.map (fun s => s.order) = List.range l.length) :
    List.Pairwise (fun a b => a.order ≤ b.order) l := by
  have hp : List.Pairwise (· < ·) (l.map (fun s => s.order)) := by
    rw [h]
    exact List.pairwise_lt_range _
  rw [List.pairwise_map] at hp
  exact hp.imp le_of_lt

/-- Insertion sort is the identity on a list sorted by `order`. -/
lemma sortByOrder_sorted_id : ∀ (l : List ApprovalStep),
    List.Pairwise (fun a b => a.order ≤ b.order) l → sortByOrder l = l
  | [], _ => rfl
  | t :: ts, h => by
    have hts : sortByOrder ts = ts :=
      sortByOrder_sorted_id ts h.of_cons
    show insertByOrder t (sortByOrder ts) = t :: ts
    rw [hts]
    cases ts with
    | nil => rfl
    | cons u us =>
      have hle : t.order ≤ u.order := (List.pairwise_cons.mp h).1 u (by simp)
      simp [insertByOrder, hle]

/-! ### Concrete sample data used by witnesses and counterexamples -/

/-- A workflow step already approved by user 1. -/
def demoStepApproved : ApprovalStep :=
  { approver := 1
    status := .approved
    comments := some "ok"
    processedAt := some 3
    order := 0 }

/-- A single-step expense that has reached the terminal `approved` state
(`finalStatus` set), as produced by a full create/submit/approve run. -/
def demoApprovedExpense : Expense :=
  { employee := 10
    title := "Taxi"
    amount := 50
    currencyCode := "USD"
    currencyRate := 1
    convertedAmount := 50
    category := "Travel"
    status := .approved
    approvalWorkflow :=
      { currentStep := 0
        steps := [demoStepApproved]
        completedAt := some 3
        finalStatus := some .approved }
    submittedAt := some 2
    approvedAt := some 3
    rejectedAt := none }

/-- A two-step expense awaiting its first approval (approver 1 then
approver 2). -/
def demoPendingExpense : Expense :=
  { employee := 10
    title := "Hotel"
    amount := 200
    currencyCode := "USD"
    currencyRate := 1
    convertedAmount := 200
    category := "Travel"
    status := .pending_approval
    approvalWorkflow :=
      { currentStep := 0
        steps := [mkStep 1 0, mkStep 2 1]
        completedAt := none
        finalStatus := none }
    submittedAt := some 2
    approvedAt := none
    rejectedAt := none }

/-- A draft expense whose built workflow has no steps. -/
def demoDraftEmpty : Expense :=
  { employee := 10
    title := "Pens"
    amount := 5
    currencyCode := "USD"
    currencyRate := 1
    convertedAmount := 5
    category := "Office"
    status := .draft
    approvalWorkflow :=
      { currentStep := 0
        steps := []
        completedAt := none
        finalStatus := none }
    submittedAt := none
    approvedAt := none
    rejectedAt := none }

/-- A draft expense with a one-step workflow (approver 7). -/
def demoDraftOneStep : Expense :=
  { demoDraftEmpty with
    title := "Flight"
    approvalWorkflow :=
      { currentStep := 0
        steps := [mkStep 7 0]
        completedAt := none
        finalStatus := none } }

/-- `true` exactly on a 400 `invalidState` error response. -/
def isInvalidStateResult : Except ApiError Expense → Bool
  | .error (.invalidState _) => true
  | _ => false

deriving instance DecidableEq for Except

/-! ### Shared lemmas -/

/-- `canBeApprovedBy` is `false` whenever the acting user is not the
approver of the active step (in particular when no active step exists). -/
lemma canBeApprovedBy_false_of_not_active_approver (e : Expense) (u : Nat)
    (h : (e.approvalWorkflow.steps[e.approvalWorkflow.currentStep]?.all
      (fun s => s.approver != u)) = true) :
    e.canBeApprovedBy u = false := by
  unfold Expense.canBeApprovedBy
  split
  · rfl
  · cases hs : e.approvalWorkflow.steps[e.approvalWorkflow.currentStep]? with
    | none => rfl
    | some s =>
      rw [hs] at h
      simp only [Option.all_some, bne_iff_ne, ne_eq, decide_eq_true_eq] at h
      simp [h]

/-- `canBeApprovedBy` is `false` whenever the expense is not in
`pending_approval` (in particular in the terminal states). -/
lemma canBeApprovedBy_false_of_status (e : Expense) (u : Nat)
    (h : e.status ≠ ExpStatus.pending_approval) :
    e.canBeApprovedBy u = false := by
  unfold Expense.canBeApprovedBy
  simp [h]

/-! ### Claims -/

/-- C1 (counterexample): on a fully approved single-step expense
(`finalStatus = approved`), a second approve call by the very approver
fails — but with the 403 authorization error of the route's
`canBeApprovedBy` gate, not with an `InvalidStateError`: the handler has
no invalid-state response at all. -/
theorem second_approve_is_authorization_not_invalid_state :
    approveExpense demoApprovedExpense 1 none 5 =
      Except.error (ApiError.authorization
        "You are not authorized to approve this expense") ∧
    isInvalidStateResult (approveExpense demoApprovedExpense 1 none 5) = false := by
  decide

/-- C1 (amended): once `finalStatus` is set — and with it the expense
status is terminal (`approved` or `rejected`) — every later
`approveExpense` call fails with the 403 authorization error and every
later `rejectExpense` call fails as well, so neither call returns an
updated expense: `approvalWorkflow` and `status` stay unchanged.  The
failure is an authorization error, not an `InvalidStateError`. -/
theorem terminal_expense_approve_reject_unchanged (e : Expense) (u : Nat)
    (c : Option String) (cr : String) (now : Nat)
    (_hFinal : e.approvalWorkflow.finalStatus.isSome = true)
    (hStatus : e.status = ExpStatus.approved ∨ e.status = ExpStatus.rejected) :
    approveExpense e u c now =
      Except.error (ApiError.authorization
        "You are not authorized to approve this expense") ∧
    (rejectExpense e u cr now).isOk = false := by
  have hne : e.status ≠ ExpStatus.pending_approval := by
    rcases hStatus with h | h <;> simp [h]
  have hcan := canBeApprovedBy_false_of_status e u hne
  constructor
  · simp [approveExpense, hcan]
  · unfold rejectExpense
    split
    · rfl
    · simp [hcan, Except.isOk, Except.toBool]

/-- C1 witness: the amended theorem applied to the concrete fully
approved expense. -/
theorem terminal_expense_approve_reject_unchanged_witness :
    approveExpense demoApprovedExpense 1 none 5 =
      Except.error (ApiError.authorization
        "You are not authorized to approve this expense") ∧
    (rejectExpense demoApprovedExpense 1 "no" 5).isOk = false :=
  terminal_expense_approve_reject_unchanged demoApprovedExpense 1 none "no" 5
    (by decide) (Or.inl (by decide))

/-- C5: an approve or reject call by any user other than the approver of
the active step (also when no active step exists) fails with the 403
authorization error; no updated expense is returned, so no step status,
`currentStep`, expense status or timestamp changes.  (`comments` must be
non-blank for the reject route, whose express-validator check runs
first.) -/
theorem unauthorized_actor_approve_reject_fails (e : Expense) (u : Nat)
    (c : Option String) (cr : String) (now : Nat)
    (hNotApprover : (e.approvalWorkflow.steps[e.approvalWorkflow.currentStep]?.all
      (fun s => s.approver != u)) = true)
    (hcr : isBlankComments cr = false) :
    approveExpense e u c now =
      Except.error (ApiError.authorization
        "You are not authorized to approve this expense") ∧
    rejectExpense e u cr now =
      Except.error (ApiError.authorization
        "You are not authorized to reject this expense") := by
  have hcan := canBeApprovedBy_false_of_not_active_approver e u hNotApprover
  constructor
  · simp [approveExpense, hcan]
  · simp [rejectExpense, hcr, hcan]

/-- C5 witness: user 2 is not the active approver (user 1) of the pending
two-step expense, so both calls fail with the authorization error. -/
theorem unauthorized_actor_approve_reject_fails_witness :
    approveExpense demoPendingExpense 2 none 5 =
      Except.error (ApiError.authorization
        "You are not authorized to approve this expense") ∧
    rejectExpense demoPendingExpense 2 "bad" 5 =
      Except.error (ApiError.authorization
        "You are not authorized to reject this expense") :=
  unauthorized_actor_approve_reject_fails demoPendingExpense 2 none "bad" 5
    (by decide) (by decide)

/-- C2: on an expense in `pending_approval` whose active step is
`pending`, an approve call by that step's approver marks the step
`approved` with the given comments and `processedAt = now`; when
`currentStep + 1 < steps.length` it advances `currentStep` by exactly 1
and leaves the status `pending_approval` (and `finalStatus` unset as
before), otherwise it sets status `approved`, `approvedAt`,
`approvalWorkflow.completedAt` and `finalStatus = approved`. -/
theorem approve_marks_step_and_advances (e : Expense) (s : ApprovalStep)
    (c : Option String) (now : Nat)
    (hStatus : e.status = ExpStatus.pending_approval)
    (hStep : e.approvalWorkflow.steps[e.approvalWorkflow.currentStep]? = some s)
    (hPending : s.status = StepStatus.pending) :
    ∃ e', approveExpense e s.approver c now = Except.ok e' ∧
      e'.approvalWorkflow.steps[e.approvalWorkflow.currentStep]? =
        some { s with
          status := .approved
          comments := c
          processedAt := some now } ∧
      ((e.approvalWorkflow.currentStep + 1 < e.approvalWorkflow.steps.length →
          e'.approvalWorkflow.currentStep = e.approvalWorkflow.currentStep + 1 ∧
          e'.status = ExpStatus.pending_approval ∧
          e'.approvalWorkflow.finalStatus = e.approvalWorkflow.finalStatus) ∧
       (¬ e.approvalWorkflow.currentStep + 1 < e.approvalWorkflow.steps.length →
          e'.approvalWorkflow.currentStep = e.approvalWorkflow.currentStep ∧
          e'.status = ExpStatus.approved ∧
          e'.approvedAt = some now ∧
          e'.approvalWorkflow.completedAt = some now ∧
          e'.approvalWorkflow.finalStatus = some FinalStatus.approved)) := by
  have hlt : e.approvalWorkflow.currentStep < e.approvalWorkflow.steps.length :=
    (List.getElem?_eq_some.mp hStep).1
  have hguard : e.canBeApprovedBy s.approver = true := by
    simp [Expense.canBeApprovedBy, hStatus, hStep, hPending]
  by_cases hadv :
      e.approvalWorkflow.currentStep + 1 < e.approvalWorkflow.steps.length
  · refine ⟨{ e with approvalWorkflow :=
        { e.approvalWorkflow with
          currentStep := e.approvalWorkflow.currentStep + 1
          steps := e.approvalWorkflow.steps.set e.approvalWorkflow.currentStep
            { s with
              status := .approved
              comments := c
              processedAt := some now } } },
      ?_, ?_, ?_, ?_⟩
    · simp [approveExpense, hguard, Expense.approve, hStep, hadv]
    · exact List.getElem?_set_eq_of_lt _ hlt
    · intro _
      exact ⟨rfl, hStatus, rfl⟩
    · intro hc
      exact absurd hadv hc
  · refine ⟨{ e with
        status := ExpStatus.approved
        approvedAt := some now
        approvalWorkflow :=
          { e.approvalWorkflow with
            steps := e.approvalWorkflow.steps.set e.approvalWorkflow.currentStep
              { s with
                status := .approved
                comments := c
                processedAt := some now }
            completedAt := some now
            finalStatus := some FinalStatus.approved } },
      ?_, ?_, ?_, ?_⟩
    · simp [approveExpense, hguard, Expense.approve, hStep, hadv]
    · exact List.getElem?_set_eq_of_lt _ hlt
    · intro hc
      exact absurd hc hadv
    · intro _
      exact ⟨rfl, rfl, rfl, rfl, rfl⟩

/-- C2 witness: approver 1 approves the two-step pending expense; the
chain advances to step 1 and the status stays `pending_approval`. -/
theorem approve_marks_step_and_advances_witness :
    ∃ e', approveExpense demoPendingExpense 1 (some "fine") 5 = Except.ok e' ∧
      e'.approvalWorkflow.steps[demoPendingExpense.approvalWorkflow.currentStep]? =
        some { mkStep 1 0 with
          status := .approved
          comments := some "fine"
          processedAt := some 5 } ∧
      ((demoPendingExpense.approvalWorkflow.currentStep + 1 <
          demoPendingExpense.approvalWorkflow.steps.length →
          e'.approvalWorkflow.currentStep =
            demoPendingExpense.approvalWorkflow.currentStep + 1 ∧
          e'.status = ExpStatus.pending_approval ∧
          e'.approvalWorkflow.finalStatus =
            demoPendingExpense.approvalWorkflow.finalStatus) ∧
       (¬ demoPendingExpense.approvalWorkflow.currentStep + 1 <
          demoPendingExpense.approvalWorkflow.steps.length →
          e'.approvalWorkflow.currentStep =
            demoPendingExpense.approvalWorkflow.currentStep ∧
          e'.status = ExpStatus.approved ∧
          e'.approvedAt = some 5 ∧
          e'.approvalWorkflow.completedAt = some 5 ∧
          e'.approvalWorkflow.finalStatus = some FinalStatus.approved)) :=
  approve_marks_step_and_advances demoPendingExpense (mkStep 1 0)
    (some "fine") 5 rfl (by decide) rfl

/-- C3: on an expense in `pending_approval` whose active step is
`pending`, a reject call by that step's approver marks the step
`rejected` (with comments and `processedAt`) and unconditionally makes
the expense `rejected` — setting `rejectedAt`,
`approvalWorkflow.completedAt` and `finalStatus = rejected` — no matter
how many steps remain; `currentStep` does not advance and every other
step (in particular every earlier approved one) is left untouched. -/
theorem reject_is_terminal_and_preserves_other_steps (e : Expense)
    (s : ApprovalStep) (cr : String) (now : Nat)
    (hStatus : e.status = ExpStatus.pending_approval)
    (hStep : e.approvalWorkflow.steps[e.approvalWorkflow.currentStep]? = some s)
    (hPending : s.status = StepStatus.pending)
    (hcr : isBlankComments cr = false) :
    ∃ e', rejectExpense e s.approver cr now = Except.ok e' ∧
      e'.approvalWorkflow.steps[e.approvalWorkflow.currentStep]? =
        some { s with
          status := .rejected
          comments := some cr
          processedAt := some now } ∧
      e'.status = ExpStatus.rejected ∧
      e'.rejectedAt = some now ∧
      e'.approvalWorkflow.completedAt = some now ∧
      e'.approvalWorkflow.finalStatus = some FinalStatus.rejected ∧
      e'.approvalWorkflow.currentStep = e.approvalWorkflow.currentStep ∧
      (∀ j, j ≠ e.approvalWorkflow.currentStep →
        e'.approvalWorkflow.steps[j]? = e.approvalWorkflow.steps[j]?) := by
  have hlt : e.approvalWorkflow.currentStep < e.approvalWorkflow.steps.length :=
    (List.getElem?_eq_some.mp hStep).1
  have hguard : e.canBeApprovedBy s.approver = true := by
    simp [Expense.canBeApprovedBy, hStatus, hStep, hPending]
  refine ⟨{ e with
      status := ExpStatus.rejected
      rejectedAt := some now
      approvalWorkflow :=
        { e.approvalWorkflow with
          steps := e.approvalWorkflow.steps.set e.approvalWorkflow.currentStep
            { s with
              status := .rejected
              comments := some cr
              processedAt := some now }
          completedAt := some now
          finalStatus := some FinalStatus.rejected } },
    ?_, ?_, rfl, rfl, rfl, rfl, rfl, ?_⟩
  · simp [rejectExpense, hcr, hguard, Expense.reject, hStep]
  · exact List.getElem?_set_eq_of_lt _ hlt
  · intro j hj
    exact List.getElem?_set_ne (fun h => hj h.symm)

/-- C3 witness: approver 1 rejects the two-step pending expense at step
0; the expense becomes `rejected` with one step still untouched. -/
theorem reject_is_terminal_and_preserves_other_steps_witness :
    ∃ e', rejectExpense demoPendingExpense 1 "too costly" 5 = Except.ok e' ∧
      e'.approvalWorkflow.steps[demoPendingExpense.approvalWorkflow.currentStep]? =
        some { mkStep 1 0 with
          status := .rejected
          comments := some "too costly"
          processedAt := some 5 } ∧
      e'.status = ExpStatus.rejected ∧
      e'.rejectedAt = some 5 ∧
      e'.approvalWorkflow.completedAt = some 5 ∧
      e'.approvalWorkflow.finalStatus = some FinalStatus.rejected ∧
      e'.approvalWorkflow.currentStep =
        demoPendingExpense.approvalWorkflow.currentStep ∧
      (∀ j, j ≠ demoPendingExpense.approvalWorkflow.currentStep →
        e'.approvalWorkflow.steps[j]? =
          demoPendingExpense.approvalWorkflow.steps[j]?) :=
  reject_is_terminal_and_preserves_other_steps demoPendingExpense (mkStep 1 0)
    "too costly" 5 rfl (by decide) rfl (by decide)

/-- C6: submitting a draft expense as its owning employee auto-approves
it when the built workflow has no steps — status goes straight from
`draft` to `approved` with `approvedAt`, `approvalWorkflow.completedAt`
and `finalStatus = approved` set, and the step list stays empty so no
step ever becomes `pending` — while with a non-empty step list the
expense instead moves to `pending_approval` with `submittedAt` set. -/
theorem submit_zero_steps_auto_approves (e : Expense) (now : Nat)
    (hDraft : e.status = ExpStatus.draft) :
    (e.approvalWorkflow.steps = [] →
      submitExpense e e.employee now = Except.ok { e with
        status := ExpStatus.approved
        submittedAt := some now
        approvedAt := some now
        approvalWorkflow := { e.approvalWorkflow with
          completedAt := some now
          finalStatus := some .approved } }) ∧
    (e.approvalWorkflow.steps ≠ [] →
      ∃ e', submitExpense e e.employee now = Except.ok e' ∧
        e'.status = ExpStatus.pending_approval ∧
        e'.submittedAt = some now ∧
        e'.approvalWorkflow = e.approvalWorkflow) := by
  constructor
  · intro hEmpty
    simp [submitExpense, hDraft, hEmpty]
  · intro hNonEmpty
    have hlen : 0 < e.approvalWorkflow.steps.length :=
      List.length_pos.mpr hNonEmpty
    refine ⟨{ e with
        status := ExpStatus.pending_approval
        submittedAt := some now }, ?_, rfl, rfl, rfl⟩
    simp [submitExpense, hDraft, hlen, Nat.pos_iff_ne_zero.mp hlen]

/-- C6 witness: the theorem applied to a zero-step draft expense and to a
one-step draft expense. -/
theorem submit_zero_steps_auto_approves_witness :
    (submitExpense demoDraftEmpty 10 4 = Except.ok { demoDraftEmpty with
      status := ExpStatus.approved
      submittedAt := some 4
      approvedAt := some 4
      approvalWorkflow := { demoDraftEmpty.approvalWorkflow with
        completedAt := some 4
        finalStatus := some .approved } }) ∧
    (∃ e', submitExpense demoDraftOneStep 10 4 = Except.ok e' ∧
      e'.status = ExpStatus.pending_approval ∧
      e'.submittedAt = some 4 ∧
      e'.approvalWorkflow = demoDraftOneStep.approvalWorkflow) :=
  ⟨(submit_zero_steps_auto_approves demoDraftEmpty 4 rfl).1 rfl,
   (submit_zero_steps_auto_approves demoDraftOneStep 4 rfl).2 (by decide)⟩

/-- A company with manager approval enabled, no rules, one active
category and an active admin (user 9). -/
def demoCompany : CompanyCfg :=
  { defaultCurrencyCode := "USD"
    expenseCategories := [{ name := "Travel", isActive := true }]
    maxExpenseAmount := none
    isManagerApproverEnabled := true
    approvalRules := []
    admin := some 9 }

/-- C10: every workflow the builder returns has `currentStep = 0`,
pairwise-distinct step approvers, and `order` values that are exactly
`0, 1, …, n-1` — each equal to its step's index in the sorted list —
whatever combination of manager injection, rule expansion and fallback
admin step produced it. -/
theorem builder_workflow_invariant (mgr : Option Nat) (amt : ℚ) (cat : String)
    (co : CompanyCfg) :
    (createApprovalWorkflow mgr amt cat co).currentStep = 0 ∧
    ((createApprovalWorkflow mgr amt cat co).steps.map
      (fun s => s.approver)).Nodup ∧
    (createApprovalWorkflow mgr amt cat co).steps.map (fun s => s.order) =
      List.range (createApprovalWorkflow mgr amt cat co).steps.length := by
  have hAcc : AccInv (ruleSteps amt cat co (managerSteps mgr co)) :=
    ruleSteps_accInv amt cat co _ (managerSteps_accInv mgr co)
  have hSteps : StepsInv (fallbackSteps co
      (ruleSteps amt cat co (managerSteps mgr co)).1) :=
    fallbackSteps_stepsInv co _ ⟨hAcc.1, hAcc.2.2⟩
  have hid : sortByOrder (fallbackSteps co
        (ruleSteps amt cat co (managerSteps mgr co)).1) =
      fallbackSteps co (ruleSteps amt cat co (managerSteps mgr co)).1 :=
    sortByOrder_sorted_id _ (pairwise_order_of_range _ hSteps.1)
  refine ⟨rfl, ?_, ?_⟩
  · show (sortByOrder (fallbackSteps co
      (ruleSteps amt cat co (managerSteps mgr co)).1)).map
        (fun s => s.approver) |>.Nodup
    rw [hid]
    exact hSteps.2
  · show (sortByOrder (fallbackSteps co
      (ruleSteps amt cat co (managerSteps mgr co)).1)).map (fun s => s.order) =
      List.range (sortByOrder (fallbackSteps co
        (ruleSteps amt cat co (managerSteps mgr co)).1)).length
    rw [hid]
    exact hSteps.1

/-- C9: whenever `isManagerApproverEnabled` is true and the submitting
employee has a manager, the built workflow's first step is that manager,
pending, with `order = 0`, ahead of any rule-derived steps. -/
theorem manager_occupies_step_zero (m : Nat) (amt : ℚ) (cat : String)
    (co : CompanyCfg) (hEnabled : co.isManagerApproverEnabled = true) :
    ∃ rest, (createApprovalWorkflow (some m) amt cat co).steps =
      mkStep m 0 :: rest := by
  have hman : managerSteps (some m) co = ([mkStep m 0], 1) := by
    unfold managerSteps
    rw [hEnabled]
  obtain ⟨ext, hext⟩ := ruleSteps_prefix amt cat co (managerSteps (some m) co)
  have hAcc : AccInv (ruleSteps amt cat co (managerSteps (some m) co)) :=
    ruleSteps_accInv amt cat co _ (managerSteps_accInv (some m) co)
  have hlist : (ruleSteps amt cat co (managerSteps (some m) co)).1 =
      mkStep m 0 :: ext := by
    rw [hext, hman]
    rfl
  have hne : ¬ (ruleSteps amt cat co (managerSteps (some m) co)).1.length = 0 := by
    rw [hlist]
    simp
  have hfb : fallbackSteps co (ruleSteps amt cat co (managerSteps (some m) co)).1 =
      (ruleSteps amt cat co (managerSteps (some m) co)).1 := by
    unfold fallbackSteps
    rw [if_neg hne]
  refine ⟨ext, ?_⟩
  show sortByOrder (fallbackSteps co
    (ruleSteps amt cat co (managerSteps (some m) co)).1) = mkStep m 0 :: ext
  rw [hfb, sortByOrder_sorted_id _ (pairwise_order_of_range _ hAcc.1), hlist]

/-- C9 witness: a manager (user 3) of an employee in the demo company
heads the workflow. -/
theorem manager_occupies_step_zero_witness :
    ∃ rest, (createApprovalWorkflow (some 3) 50 "Travel" demoCompany).steps =
      mkStep 3 0 :: rest :=
  manager_occupies_step_zero 3 50 "Travel" demoCompany rfl

/-- An active `percentage`-type rule (60 %, two listed approvers) that
matches every Travel expense. -/
def demoPercRule : ApprovalRule :=
  { type := .percentage
    percentage := some 60
    specificApprovers := [{ user := 4, autoApprove := false },
                          { user := 5, autoApprove := false }]
    minAmount := some 0
    maxAmount := none
    categories := []
    isActive := true }

/-- The demo company with the percentage rule as its only approval rule
and manager approval off. -/
def demoPercCompany : CompanyCfg :=
  { demoCompany with
    isManagerApproverEnabled := false
    approvalRules := [demoPercRule] }

/-- C7 (counterexample): the percentage rule is the (only) matching rule,
yet the workflow built for a Travel expense of 50 is byte-for-byte the
workflow built with no rules at all — the fallback admin step — and the
builder's output type (`currentStep`, `steps`, `completedAt`,
`finalStatus`, from the source schema) carries no chain-level completion
policy whatsoever, let alone one requiring 60 % of the approver pool. -/
theorem percentage_rule_records_no_policy :
    ruleMatches 50 "Travel" demoPercRule = true ∧
    createApprovalWorkflow none 50 "Travel" demoPercCompany =
      createApprovalWorkflow none 50 "Travel"
        { demoPercCompany with approvalRules := [] } ∧
    (createApprovalWorkflow none 50 "Travel" demoPercCompany).steps =
      [mkStep 9 0] := by
  decide

/-- C7 (amended): when the first matching rule has type `percentage`, the
builder adds no steps for it and records nothing about it — the resulting
workflow is identical to the one built with no approval rules (so the
fallback admin step applies whenever no manager step exists). -/
theorem percentage_first_match_adds_nothing (mgr : Option Nat) (amt : ℚ)
    (cat : String) (co : CompanyCfg) (r : ApprovalRule)
    (hFirst : (co.approvalRules.filter (ruleMatches amt cat)).head? = some r)
    (hType : r.type = RuleType.percentage) :
    createApprovalWorkflow mgr amt cat co =
      createApprovalWorkflow mgr amt cat { co with approvalRules := [] } := by
  have hrs : ruleSteps amt cat co (managerSteps mgr co) = managerSteps mgr co := by
    unfold ruleSteps
    split
    · rfl
    · next rule heq =>
      rw [hFirst] at heq
      injection heq with heq2
      subst heq2
      rw [hType]
  have hrs2 : ruleSteps amt cat { co with approvalRules := [] }
      (managerSteps mgr { co with approvalRules := [] }) =
      managerSteps mgr { co with approvalRules := [] } := rfl
  show ({ currentStep := 0
          steps := sortByOrder (fallbackSteps co
            (ruleSteps amt cat co (managerSteps mgr co)).1)
          completedAt := none
          finalStatus := none } : ApprovalWorkflow) =
    { currentStep := 0
      steps := sortByOrder (fallbackSteps { co with approvalRules := [] }
        (ruleSteps amt cat { co with approvalRules := [] }
          (managerSteps mgr { co with approvalRules := [] })).1)
      completedAt := none
      finalStatus := none }
  rw [hrs, hrs2]
  rfl

/-- C7 witness: the amended theorem applied to the percentage-rule demo
company. -/
theorem percentage_first_match_adds_nothing_witness :
    createApprovalWorkflow none 50 "Travel" demoPercCompany =
      createApprovalWorkflow none 50 "Travel"
        { demoPercCompany with approvalRules := [] } :=
  percentage_first_match_adds_nothing none 50 "Travel" demoPercCompany
    demoPercRule (by decide) rfl

/-- JavaScript-style emptiness: a list fails `length > 0` exactly when it
is empty. -/
lemma notLenPos_eq_isEmpty (l : List String) :
    (!decide (0 < l.length)) = l.isEmpty := by
  cases l <;> simp

/-- Strict-order negation at the `Bool` level. -/
lemma not_decide_lt (a b : ℚ) : (!decide (a < b)) = decide (b ≤ a) := by
  by_cases h : a < b
  · simp [h, not_le.mpr h]
  · simp [h, not_lt.mp h]

/-- The rule filter as the claim words it: `isActive`, `convertedAmount ≥
minAmount` (minAmount defaulting to 0 when unset), `convertedAmount ≤
maxAmount` (unset maxAmount meaning unbounded), and categories empty or
containing the category.  Written from the claim, to be compared with
`ruleMatches` from the source. -/
def specRuleMatches (convertedAmount : ℚ) (category : String)
    (rule : ApprovalRule) : Bool :=
  rule.isActive &&
  decide (rule.minAmount.getD 0 ≤ convertedAmount) &&
  (match rule.maxAmount with
   | none => true
   | some m => decide (convertedAmount ≤ m)) &&
  (rule.categories.isEmpty || rule.categories.contains category)

/-- The claim's filter amended for JavaScript truthiness: a bound that is
*zero* (not only an unset one) is also no bound at all. -/
def specRuleMatchesAmended (convertedAmount : ℚ) (category : String)
    (rule : ApprovalRule) : Bool :=
  rule.isActive &&
  (rule.minAmount.getD 0 == 0 ||
    decide (rule.minAmount.getD 0 ≤ convertedAmount)) &&
  (rule.maxAmount.getD 0 == 0 ||
    decide (convertedAmount ≤ rule.maxAmount.getD 0)) &&
  (rule.categories.isEmpty || rule.categories.contains category)

/-- An active rule whose `maxAmount` is explicitly 0. -/
def demoZeroMaxRule : ApprovalRule :=
  { type := .specific
    percentage := none
    specificApprovers := [{ user := 3, autoApprove := false }]
    minAmount := some 0
    maxAmount := some 0
    categories := []
    isActive := true }

/-- C4 (counterexample): for a rule with `maxAmount = 0` and a converted
amount of 5, the code's filter keeps the rule (JavaScript `0` is falsy,
so `rule.maxAmount && …` skips the bound check) while the claim's filter
(`convertedAmount ≤ maxAmount`, unset meaning unbounded) drops it — the
selected rule sets differ. -/
theorem zero_maxAmount_filter_divergence :
    List.filter (ruleMatches 5 "Travel") [demoZeroMaxRule] = [demoZeroMaxRule] ∧
    List.filter (specRuleMatches 5 "Travel") [demoZeroMaxRule] = [] := by
  decide

/-- C4 (amended): the code's rule filter keeps exactly the rules that are
active, within the minimum bound unless `minAmount` is unset *or zero*,
within the maximum bound unless `maxAmount` is unset *or zero*, and whose
category list is empty or contains the expense's category; and the
builder applies only the first rule of the filtered list — replacing the
organization's rules by just that first matching rule (or by nothing when
none matches) yields the identical workflow, so rules are never
combined. -/
theorem rule_filter_and_first_match_only :
    (∀ (convertedAmount : ℚ) (category : String) (rule : ApprovalRule),
      ruleMatches convertedAmount category rule =
        specRuleMatchesAmended convertedAmount category rule) ∧
    (∀ (mgr : Option Nat) (amt : ℚ) (cat : String) (co : CompanyCfg),
      createApprovalWorkflow mgr amt cat co =
        createApprovalWorkflow mgr amt cat
          { co with approvalRules :=
              ((co.approvalRules.filter (ruleMatches amt cat)).head?).toList }) := by
  constructor
  · intro convertedAmount category rule
    unfold ruleMatches specRuleMatchesAmended jsTruthy
    rcases hmin : rule.minAmount with _ | m <;>
      rcases hmax : rule.maxAmount with _ | M <;>
      simp only [Option.getD_none, Option.getD_some, gt_iff_lt]
    · simp [notLenPos_eq_isEmpty]
    · by_cases hM : M = 0 <;>
        simp [hM, bne, beq_iff_eq, not_decide_lt, notLenPos_eq_isEmpty]
    · by_cases hm : m = 0 <;>
        simp [hm, bne, beq_iff_eq, not_decide_lt, notLenPos_eq_isEmpty]
    · by_cases hm : m = 0 <;> by_cases hM : M = 0 <;>
        simp [hm, hM, bne, beq_iff_eq, not_decide_lt, notLenPos_eq_isEmpty]
  · intro mgr amt cat co
    have hrs : ruleSteps amt cat
        { co with approvalRules :=
            ((co.approvalRules.filter (ruleMatches amt cat)).head?).toList }
          (managerSteps mgr co) =
        ruleSteps amt cat co (managerSteps mgr co) := by
      unfold ruleSteps
      cases hh : (co.approvalRules.filter (ruleMatches amt cat)).head? with
      | none => rfl
      | some r =>
        have hr : ruleMatches amt cat r = true := by
          obtain ⟨ys, hys⟩ := List.head?_eq_some_iff.mp hh
          have hmem : r ∈ co.approvalRules.filter (ruleMatches amt cat) := by
            rw [hys]
            exact List.mem_cons_self r ys
          exact (List.mem_filter.mp hmem).2
        show (match (List.filter (ruleMatches amt cat) [r]).head? with
          | none => managerSteps mgr co
          | some rule =>
            match rule.type with
            | .specific | .hybrid =>
              addRuleSteps rule.specificApprovers (managerSteps mgr co)
            | .percentage => managerSteps mgr co) = _
        rw [List.filter_cons_of_pos hr]
        rfl
    show ({ currentStep := 0
            steps := sortByOrder (fallbackSteps co
              (ruleSteps amt cat co (managerSteps mgr co)).1)
            completedAt := none
            finalStatus := none } : ApprovalWorkflow) =
      { currentStep := 0
        steps := sortByOrder (fallbackSteps
          { co with approvalRules :=
              ((co.approvalRules.filter (ruleMatches amt cat)).head?).toList }
          (ruleSteps amt cat
            { co with approvalRules :=
                ((co.approvalRules.filter (ruleMatches amt cat)).head?).toList }
            (managerSteps mgr
              { co with approvalRules :=
                  ((co.approvalRules.filter (ruleMatches amt cat)).head?).toList })).1)
        completedAt := none
        finalStatus := none }
    have hms : managerSteps mgr
        { co with approvalRules :=
            ((co.approvalRules.filter (ruleMatches amt cat)).head?).toList } =
        managerSteps mgr co := rfl
    rw [hms, hrs]
    rfl

/-- A failed exchange-rate lookup produces the same rate as a successful
`1` lookup (both degrade to `1`). -/
lemma getExchangeRate_error_eq_ok_one (f t msg : String) :
    getExchangeRate f t (Except.error msg) =
      getExchangeRate f t (Except.ok (some 1)) := by
  unfold getExchangeRate
  split
  · rfl
  · norm_num

/-- A successfully created expense records `convertedAmount` as
`amount × rate`. -/
lemma createExpense_ok_conv (employeeId : Nat) (title : String) (amount : ℚ)
    (currencyCode : Option String) (category : String)
    (employeeManager : Option Nat) (company : CompanyCfg)
    (lookupResult : Except String (Option ℚ)) (e : Expense)
    (h : createExpense employeeId title amount currencyCode category
      employeeManager company lookupResult = Except.ok e) :
    e.convertedAmount = e.amount * e.currencyRate := by
  unfold createExpense at h
  split at h
  · simp at h
  · dsimp only [] at h
    split at h
    · simp at h
    · injection h with h2
      subst h2
      rfl

/-- Submission never touches the money fields. -/
lemma submitExpense_ok_conv (e e' : Expense) (u now : Nat)
    (h : submitExpense e u now = Except.ok e') :
    e'.convertedAmount = e.convertedAmount := by
  unfold submitExpense at h
  dsimp only [] at h
  split at h
  · simp at h
  · split at h
    · simp at h
    · split at h
      · injection h with h2
        subst h2
        rfl
      · injection h with h2
        subst h2
        rfl

/-- The `approve` model method never touches the money fields. -/
lemma approve_ok_conv (e : Expense) (a : Nat) (c : Option String) (now : Nat)
    (e' : Expense) (h : e.approve a c now = Except.ok e') :
    e'.convertedAmount = e.convertedAmount := by
  unfold Expense.approve at h
  dsimp only [] at h
  split at h
  · simp at h
  · split at h
    · simp at h
    · split at h
      · injection h with h2
        subst h2
        rfl
      · injection h with h2
        subst h2
        rfl

/-- The `reject` model method never touches the money fields. -/
lemma reject_ok_conv (e : Expense) (a : Nat) (c : Option String) (now : Nat)
    (e' : Expense) (h : e.reject a c now = Except.ok e') :
    e'.convertedAmount = e.convertedAmount := by
  unfold Expense.reject at h
  dsimp only [] at h
  split at h
  · simp at h
  · split at h
    · simp at h
    · injection h with h2
      subst h2
      rfl

/-- The approve route never touches the money fields. -/
lemma approveExpense_ok_conv (e e' : Expense) (u now : Nat) (c : Option String)
    (h : approveExpense e u c now = Except.ok e') :
    e'.convertedAmount = e.convertedAmount := by
  unfold approveExpense at h
  split at h
  · simp at h
  · cases ha : e.approve u c now with
    | ok e2 =>
      rw [ha] at h
      injection h with h2
      subst h2
      exact approve_ok_conv e u c now e2 ha
    | error m =>
      rw [ha] at h
      simp at h

/-- The reject route never touches the money fields. -/
lemma rejectExpense_ok_conv (e e' : Expense) (u now : Nat) (cr : String)
    (h : rejectExpense e u cr now = Except.ok e') :
    e'.convertedAmount = e.convertedAmount := by
  unfold rejectExpense at h
  split at h
  · simp at h
  · split at h
    · simp at h
    · cases hr : e.reject u (some cr) now with
      | ok e2 =>
        rw [hr] at h
        injection h with h2
        subst h2
        exact reject_ok_conv e u (some cr) now e2 hr
      | error m =>
        rw [hr] at h
        simp at h

/-- C8: a failed currency lookup never aborts expense creation — creation
behaves exactly as with a successful 1:1 rate — and `convertedAmount` is
computed exactly once at creation as `amount × rate`: no submit, approve
or reject action that returns an updated expense ever changes it. -/
theorem currency_degrades_and_conversion_immutable :
    (∀ (employeeId : Nat) (title : String) (amount : ℚ)
        (currencyCode : Option String) (category : String)
        (employeeManager : Option Nat) (company : CompanyCfg) (msg : String),
      createExpense employeeId title amount currencyCode category
          employeeManager company (Except.error msg) =
        createExpense employeeId title amount currencyCode category
          employeeManager company (Except.ok (some 1))) ∧
    (∀ (employeeId : Nat) (title : String) (amount : ℚ)
        (currencyCode : Option String) (category : String)
        (employeeManager : Option Nat) (company : CompanyCfg)
        (lookupResult : Except String (Option ℚ)) (e : Expense),
      createExpense employeeId title amount currencyCode category
          employeeManager company lookupResult = Except.ok e →
        e.convertedAmount = e.amount * e.currencyRate) ∧
    (∀ (e e' : Expense) (u now : Nat),
      submitExpense e u now = Except.ok e' →
        e'.convertedAmount = e.convertedAmount) ∧
    (∀ (e e' : Expense) (u now : Nat) (c : Option String),
      approveExpense e u c now = Except.ok e' →
        e'.convertedAmount = e.convertedAmount) ∧
    (∀ (e e' : Expense) (u now : Nat) (cr : String),
      rejectExpense e u cr now = Except.ok e' →
        e'.convertedAmount = e.convertedAmount) := by
  refine ⟨?_, ?_, ?_, ?_, ?_⟩
  · intro employeeId title amount currencyCode category employeeManager
      company msg
    unfold createExpense
    simp only [getExchangeRate_error_eq_ok_one]
  · intro employeeId title amount currencyCode category employeeManager
      company lookupResult e h
    exact createExpense_ok_conv employeeId title amount currencyCode category
      employeeManager company lookupResult e h
  · intro e e' u now h
    exact submitExpense_ok_conv e e' u now h
  · intro e e' u now c h
    exact approveExpense_ok_conv e e' u now c h
  · intro e e' u now cr h
    exact rejectExpense_ok_conv e e' u now cr h

/-- C8 witness: a timed-out lookup yields the same created expense as an
explicit 1:1 rate, and a concrete submit leaves `convertedAmount` at 5. -/
theorem currency_degrades_and_conversion_immutable_witness :
    (createExpense 10 "Taxi" 50 (some "EUR") "Travel" none demoCompany
        (Except.error "timeout") =
      createExpense 10 "Taxi" 50 (some "EUR") "Travel" none demoCompany
        (Except.ok (some 1))) ∧
    ({ demoDraftOneStep with
        status := ExpStatus.pending_approval
        submittedAt := some 4 } : Expense).convertedAmount =
      demoDraftOneStep.convertedAmount :=
  ⟨currency_degrades_and_conversion_immutable.1 10 "Taxi" 50 (some "EUR")
      "Travel" none demoCompany "timeout",
   currency_degrades_and_conversion_immutable.2.2.1 demoDraftOneStep
      { demoDraftOneStep with
        status := ExpStatus.pending_approval
        submittedAt := some 4 } 10 4 (by decide)⟩

end ExpenseApp
